import Mathlib

/-!
Verification model of the `coffee` terminal assistant
(`src/coffee/main.py`, `src/coffee/context_manager.py`).

The Python code is shallowly embedded: pure helpers become Lean functions,
the process/OS boundary (subprocess, file system, clock, model API) is made
explicit through oracle parameters and a small file-system state, and every
Python exception path is represented by an `Option`/`Except` failure value.
-/

namespace Coffee

/-! ## JSON values and a model of Python `json.loads` -/

/-- JSON values as produced by the `json.loads` calls in the repository.
Objects keep their key/value pairs in source order (Python dicts preserve
insertion order); a non-integer numeric literal is kept as its lexeme in
`numRaw`, since no code under analysis inspects numeric values beyond
integer equality. -/
inductive JValue where
  | null
  | bool (b : Bool)
  | num (n : Int)
  | numRaw (lexeme : String)
  | str (s : String)
  | arr (elems : List JValue)
  | obj (members : List (String × JValue))

/-- Double-quote character (written via its code point to keep literals tame). -/
def qm : Char := Char.ofNat 34

/-- Backslash character. -/
def bsl : Char := Char.ofNat 92

/-- Opening curly brace. -/
def lbr : Char := Char.ofNat 123

/-- Closing curly brace. -/
def rbr : Char := Char.ofNat 125

/-- Backtick character. -/
def btick : Char := Char.ofNat 96

/-- Opening square bracket. -/
def lsq : Char := Char.ofNat 91

/-- Closing square bracket. -/
def rsq : Char := Char.ofNat 93

/-- JSON inter-token whitespace accepted by `json.loads`
(space, tab, newline, carriage return). -/
def isJsonWs (c : Char) : Bool :=
  c = ' ' || c = Char.ofNat 9 || c = Char.ofNat 10 || c = Char.ofNat 13

/-- Skip JSON whitespace. -/
def skipJsonWs (cs : List Char) : List Char := cs.dropWhile isJsonWs

/-- Value of a hexadecimal digit. -/
def hexVal (c : Char) : Option Nat :=
  if c.isDigit then some (c.toNat - 48)
  else if 97 ≤ c.toNat ∧ c.toNat ≤ 102 then some (c.toNat - 87)
  else if 65 ≤ c.toNat ∧ c.toNat ≤ 70 then some (c.toNat - 55)
  else none

/-- Parse the body of a JSON string literal (input starts just after the
opening quote); returns the decoded string and the rest of the input.
Models the strict string decoder of `json.loads`: escape sequences are
decoded, a raw control character (code point below 32) is an error. -/
def parseJStringAux (acc : List Char) : List Char → Option (String × List Char)
  | [] => none
  | c :: rest =>
    if c = qm then some (String.mk acc.reverse, rest)
    else if c = bsl then
      match rest with
      | [] => none
      | e :: rest2 =>
        if e = qm then parseJStringAux (qm :: acc) rest2
        else if e = bsl then parseJStringAux (bsl :: acc) rest2
        else if e = '/' then parseJStringAux ('/' :: acc) rest2
        else if e = 'b' then parseJStringAux (Char.ofNat 8 :: acc) rest2
        else if e = 'f' then parseJStringAux (Char.ofNat 12 :: acc) rest2
        else if e = 'n' then parseJStringAux (Char.ofNat 10 :: acc) rest2
        else if e = 'r' then parseJStringAux (Char.ofNat 13 :: acc) rest2
        else if e = 't' then parseJStringAux (Char.ofNat 9 :: acc) rest2
        else if e = 'u' then
          match rest2 with
          | h1 :: h2 :: h3 :: h4 :: rest3 =>
            match hexVal h1, hexVal h2, hexVal h3, hexVal h4 with
            | some a, some b, some c2, some d =>
              parseJStringAux (Char.ofNat (((a * 16 + b) * 16 + c2) * 16 + d) :: acc) rest3
            | _, _, _, _ => none
          | _ => none
        else none
    else if c.toNat < 32 then none
    else parseJStringAux (c :: acc) rest

/-- Longest digit run at the front of the input. -/
def digitsSpan (cs : List Char) : List Char × List Char :=
  (cs.takeWhile Char.isDigit, cs.dropWhile Char.isDigit)

/-- Natural number denoted by a digit run. -/
def natOfDigits (ds : List Char) : Nat :=
  ds.foldl (fun a c => a * 10 + (c.toNat - 48)) 0

/-- Optional exponent part of a JSON number; returns the consumed lexeme
characters and the rest (consuming nothing when no exponent is present). -/
def parseExpPart (cs : List Char) : Option (List Char × List Char) :=
  match cs with
  | c :: rest =>
    if c = 'e' ∨ c = 'E' then
      let (sgn, rest2) :=
        match rest with
        | s :: r2 => if s = '+' ∨ s = '-' then ([s], r2) else (([] : List Char), rest)
        | [] => (([] : List Char), rest)
      let (ds, rest3) := digitsSpan rest2
      if ds = [] then none else some (c :: sgn ++ ds, rest3)
    else some ([], cs)
  | [] => some ([], [])

/-- Optional fraction-then-exponent part of a JSON number. -/
def parseFracExp (cs : List Char) : Option (List Char × List Char) :=
  match cs with
  | c :: rest =>
    if c = '.' then
      let (ds, rest2) := digitsSpan rest
      if ds = [] then none
      else
        match parseExpPart rest2 with
        | some (e, rest3) => some (c :: ds ++ e, rest3)
        | none => none
    else parseExpPart cs
  | [] => some ([], [])

/-- Parse a JSON number following the strict grammar enforced by
`json.loads` (optional minus, no leading zeros, optional fraction and
exponent).  Integer literals become `JValue.num`; anything with a fraction
or exponent is kept as its lexeme. -/
def parseJNumber (cs : List Char) : Option (JValue × List Char) :=
  let (neg, cs1) :=
    match cs with
    | c :: r => if c = '-' then (true, r) else (false, cs)
    | [] => (false, cs)
  match cs1 with
  | [] => none
  | c :: _ =>
    if ¬ c.isDigit then none
    else
      let (ds, rest) := digitsSpan cs1
      if ds.length > 1 ∧ ds.head? = some '0' then none
      else
        match parseFracExp rest with
        | none => none
        | some (fe, rest2) =>
          if fe = [] then
            let n : Int := Int.ofNat (natOfDigits ds)
            some (JValue.num (if neg then -n else n), rest2)
          else
            let sgn : List Char := if neg then ['-'] else []
            some (JValue.numRaw (String.mk (sgn ++ ds ++ fe)), rest2)

/-- Exact prefix match; returns the rest of the input on success. -/
def expectChars (pat : List Char) (cs : List Char) : Option (List Char) :=
  match pat, cs with
  | [], _ => some cs
  | p :: ps, c :: cs2 => if p = c then expectChars ps cs2 else none
  | _ :: _, [] => none

mutual

/-- Recursive-descent JSON value parser (fuel-indexed model of the
`json.loads` grammar). -/
def parseJValue : Nat → List Char → Option (JValue × List Char)
  | 0, _ => none
  | f + 1, cs =>
    match skipJsonWs cs with
    | [] => none
    | c :: rest =>
      if c = lbr then
        match parseJMembers f rest with
        | some (ms, r) => some (JValue.obj ms, r)
        | none => none
      else if c = lsq then
        match parseJElems f rest with
        | some (xs, r) => some (JValue.arr xs, r)
        | none => none
      else if c = qm then
        match parseJStringAux [] rest with
        | some (s, r) => some (JValue.str s, r)
        | none => none
      else if c = 't' then
        match expectChars ['r', 'u', 'e'] rest with
        | some r => some (JValue.bool true, r)
        | none => none
      else if c = 'f' then
        match expectChars ['a', 'l', 's', 'e'] rest with
        | some r => some (JValue.bool false, r)
        | none => none
      else if c = 'n' then
        match expectChars ['u', 'l', 'l'] rest with
        | some r => some (JValue.null, r)
        | none => none
      else parseJNumber (c :: rest)

/-- Members of a JSON object, input positioned just after the opening brace. -/
def parseJMembers : Nat → List Char → Option (List (String × JValue) × List Char)
  | 0, _ => none
  | f + 1, cs =>
    match skipJsonWs cs with
    | c :: rest =>
      if c = rbr then some ([], rest)
      else parseJMembersLoop f (c :: rest)
    | [] => none

/-- One or more comma-separated object members. -/
def parseJMembersLoop : Nat → List Char → Option (List (String × JValue) × List Char)
  | 0, _ => none
  | f + 1, cs =>
    match skipJsonWs cs with
    | c :: rest =>
      if c = qm then
        match parseJStringAux [] rest with
        | some (k, r2) =>
          match skipJsonWs r2 with
          | c2 :: r3 =>
            if c2 = ':' then
              match parseJValue f r3 with
              | some (v, r4) =>
                match skipJsonWs r4 with
                | c3 :: r5 =>
                  if c3 = ',' then
                    match parseJMembersLoop f r5 with
                    | some (ms, r6) => some ((k, v) :: ms, r6)
                    | none => none
                  else if c3 = rbr then some ([(k, v)], r5)
                  else none
                | [] => none
              | none => none
            else none
          | [] => none
        | none => none
      else none
    | [] => none

/-- Elements of a JSON array, input positioned just after the opening bracket. -/
def parseJElems : Nat → List Char → Option (List JValue × List Char)
  | 0, _ => none
  | f + 1, cs =>
    match skipJsonWs cs with
    | c :: rest =>
      if c = rsq then some ([], rest)
      else parseJElemsLoop f (c :: rest)
    | [] => none

/-- One or more comma-separated array elements. -/
def parseJElemsLoop : Nat → List Char → Option (List JValue × List Char)
  | 0, _ => none
  | f + 1, cs =>
    match parseJValue f cs with
    | some (v, r) =>
      match skipJsonWs r with
      | c :: r2 =>
        if c = ',' then
          match parseJElemsLoop f r2 with
          | some (xs, r3) => some (v :: xs, r3)
          | none => none
        else if c = rsq then some ([v], r2)
        else none
      | [] => none
    | none => none

end

/-- Model of Python `json.loads`: parse a whole string as one JSON value,
allowing trailing whitespace only; `none` models `json.JSONDecodeError`. -/
def json_loads (s : String) : Option JValue :=
  match parseJValue (2 * s.length + 4) s.data with
  | some (v, rest) => if skipJsonWs rest = [] then some v else none
  | none => none

/-! ## String search primitives (models of the `re` searches in the code) -/

/-- Python regex whitespace class for ASCII text
(space, tab, newline, carriage return, form feed, vertical tab). -/
def isPyWs (c : Char) : Bool :=
  c = ' ' || c = Char.ofNat 9 || c = Char.ofNat 10 || c = Char.ofNat 13 ||
  c = Char.ofNat 12 || c = Char.ofNat 11

/-- Skip Python regex whitespace. -/
def skipPyWs (cs : List Char) : List Char := cs.dropWhile isPyWs

/-- Case-insensitive-capable character comparison. -/
def charEqCI (ci : Bool) (a b : Char) : Bool :=
  if ci then a.toLower = b.toLower else a = b

/-- Does `pat` match a prefix of `cs` (optionally case-insensitively)? -/
def startsWithCharsCI (ci : Bool) : List Char → List Char → Bool
  | [], _ => true
  | p :: ps, c :: cs => charEqCI ci p c && startsWithCharsCI ci ps cs
  | _ :: _, [] => false

/-- Case-sensitive prefix test. -/
def startsWithChars (pat cs : List Char) : Bool := startsWithCharsCI false pat cs

/-- Suffix of `cs` positioned just after the first occurrence of `pat`;
`none` when `pat` does not occur. -/
def findSubAfter (pat : List Char) : List Char → Option (List Char)
  | [] => if pat = [] then some [] else none
  | c :: rest =>
    if startsWithChars pat (c :: rest) then some ((c :: rest).drop pat.length)
    else findSubAfter pat rest

/-- Python `sub in s` on strings (substring containment). -/
def strContains (hay sub : String) : Bool :=
  (findSubAfter sub.data hay.data).isSome

/-- Three consecutive backticks. -/
def fenceChars : List Char := [btick, btick, btick]

/-- Does the input, after skipping `\s*`, start with a closing fence?
(The greedy `\s*` before the closing fence never needs to backtrack: any
earlier stop leaves a whitespace character where a backtick is required.) -/
def closesFence (cs : List Char) : Bool :=
  startsWithChars fenceChars (skipPyWs cs)

/-- Lazy scan for the closing brace of the fenced group: accept the first
closing brace whose tail (after `\s*`) is a closing fence — the semantics of
`(\{[\s\S]*?\})\s*` + backtick fence with a lazy inner quantifier. -/
def fenceGroupScan (acc : List Char) : List Char → Option (List Char)
  | [] => none
  | c :: rest =>
    if c = rbr ∧ closesFence rest then some ((rbr :: acc).reverse)
    else fenceGroupScan (c :: acc) rest

/-- Given input positioned just after the opening fence and label, complete
the match `\s*(\{[\s\S]*?\})\s*` + closing fence, returning the captured
group. -/
def fenceGroupFrom (cs : List Char) : Option (List Char) :=
  match skipPyWs cs with
  | c :: rest => if c = lbr then fenceGroupScan [lbr] rest else none
  | [] => none

/-- Leftmost-match search for a fenced code block
(three backticks, `label`, `\s*`, `(\{[\s\S]*?\})`, `\s*`, three backticks),
optionally matching the label case-insensitively; models
`re.search` with the patterns used in the repository.  The regex engine
starts at successive positions; the lazy group takes the first closing
brace from which the closing fence is reachable. -/
def fenceSearchAux (label : List Char) (ci : Bool) : List Char → Option String
  | [] => none
  | c :: rest =>
    if startsWithCharsCI ci (fenceChars ++ label) (c :: rest) then
      match fenceGroupFrom ((c :: rest).drop (fenceChars ++ label).length) with
      | some g => some (String.mk g)
      | none => fenceSearchAux label ci rest
    else fenceSearchAux label ci rest

/-- Model of `re.search` for the fenced patterns of the repository,
returning the captured braced group. -/
def findFencedBlock (label : String) (ci : Bool) (text : String) : Option String :=
  fenceSearchAux label.data ci text.data

/-- Model of `re.search(r'(\{[\s\S]*\})', text)`: the leftmost match starts
at the first opening brace that precedes some closing brace, and the greedy
quantifier extends the group to the last closing brace of the text. -/
def firstLastBrace (text : String) : Option String :=
  let cs := text.data.dropWhile (fun c => c ≠ lbr)
  let tail := cs.reverse.dropWhile (fun c => c ≠ rbr)
  match tail.reverse with
  | [] => none
  | [_] => none
  | l => some (String.mk l)

/-! ## The response parser (`_extract_json_from_text`, main.py lines 80-102) -/

/-- Direct transcription of `_extract_json_from_text`: empty text gives
`None`; otherwise try `json.loads` on the whole text, then on the group of
the case-insensitive fenced-```json`` search, then on the group of the
greedy brace-to-brace search; each failed attempt falls through to the
next. -/
def _extract_json_from_text (text : String) : Option JValue :=
  if text = "" then none
  else
    match json_loads text with
    | some v => some v
    | none =>
      match (match findFencedBlock "json" true text with
             | some g => json_loads g
             | none => none) with
      | some v => some v
      | none =>
        match firstLastBrace text with
        | some g => json_loads g
        | none => none

/-- The amended description of the extraction pipeline as an ordered
three-strategy chain: whole text, labeled fence, greedy first-brace-to-
last-brace span; first success wins. -/
def extractChainAmended (text : String) : Option JValue :=
  if text = "" then none
  else
    (json_loads text).orElse fun _ =>
      ((findFencedBlock "json" true text).bind json_loads).orElse fun _ =>
        (firstLastBrace text).bind json_loads

/-! ### The claimed four-strategy parser, modelled from the spec's words -/

/-- Balanced-brace span starting inside an object already opened at depth
`d`, accumulating the reversed span. -/
def balancedSpan : Nat → List Char → List Char → Option (List Char)
  | _, _, [] => none
  | d, acc, c :: rest =>
    if c = rbr then
      if d = 1 then some ((rbr :: acc).reverse)
      else balancedSpan (d - 1) (rbr :: acc) rest
    else if c = lbr then balancedSpan (d + 1) (lbr :: acc) rest
    else balancedSpan d (c :: acc) rest

/-- A key recognized by the dispatch logic, in quoted form. -/
def quotedKey (k : String) : List Char := qm :: k.data ++ [qm]

/-- Does the span textually contain a recognized key (`plan`, `command`,
`done`) in quoted form? -/
def hasRecognizedKey (g : List Char) : Bool :=
  (findSubAfter (quotedKey "plan") g).isSome ||
  (findSubAfter (quotedKey "command") g).isSome ||
  (findSubAfter (quotedKey "done") g).isSome

/-- Leftmost balanced-looking object containing a recognized key. -/
def firstBalancedObjWithKey : List Char → Option String
  | [] => none
  | c :: rest =>
    if c = lbr then
      match balancedSpan 1 [lbr] rest with
      | some g =>
        if hasRecognizedKey g then some (String.mk g)
        else firstBalancedObjWithKey rest
      | none => firstBalancedObjWithKey rest
    else firstBalancedObjWithKey rest

/-- Modelled from the spec: the four-strategy extraction contract of §4.1 —
(a) parse the whole text; (b) parse the contents of a fenced block labeled
as structured data; (c) parse the contents of a fenced block with no label;
(d) parse the first balanced-looking object containing a recognized key
found anywhere in the text; first success wins, `none` when all fail.
(The source has only three strategies; this definition exists to be
compared against `_extract_json_from_text`.) -/
def extractJsonSpecOrder (text : String) : Option JValue :=
  (json_loads text).orElse fun _ =>
    ((findFencedBlock "json" true text).bind json_loads).orElse fun _ =>
      ((findFencedBlock "" true text).bind json_loads).orElse fun _ =>
        (firstBalancedObjWithKey text.data).bind json_loads

/-! ## Paths and the file-system model -/

/-- `os.path.isabs` on POSIX: the path starts with a slash. -/
def isAbs (p : String) : Bool :=
  match p.data with
  | c :: _ => c = '/'
  | [] => false

/-- Does the path end with a slash? -/
def endsWithSlash (p : String) : Bool :=
  match p.data.getLast? with
  | some c => c = '/'
  | none => false

/-- `os.path.join(a, b)` on POSIX for the two-argument uses in the code:
an absolute second component replaces the first; otherwise the components
are joined with a single separator (none added when `a` already ends with
one). -/
def pathJoin (a b : String) : String :=
  if isAbs b then b
  else if a = "" then b
  else if endsWithSlash a then a ++ b
  else a ++ "/" ++ b

/-- Split at every slash (the pieces of `p.split("/")`). -/
def splitSlashAux (cur : List Char) : List Char → List String
  | [] => [String.mk cur.reverse]
  | c :: rest =>
    if c = '/' then String.mk cur.reverse :: splitSlashAux [] rest
    else splitSlashAux (c :: cur) rest

/-- Split a path into its non-empty components, resolving `.` and `..`
the way the operating system resolves them during `chdir`/`open`
(symbolic links are outside the model). -/
def pathComps (p : String) : List String :=
  ((splitSlashAux [] p.data).filter (fun c => c ≠ "" ∧ c ≠ ".")).foldl
    (fun acc c => if c = ".." then acc.dropLast else acc ++ [c]) []

/-- Join components with slashes. -/
def joinWithSlash : List String → String
  | [] => ""
  | [x] => x
  | x :: xs => x ++ "/" ++ joinWithSlash xs

/-- Canonical absolute form of a path, as returned by `os.getcwd()` after a
successful `os.chdir`. -/
def normalizePath (p : String) : String :=
  "/" ++ joinWithSlash (pathComps p)

/-- Resolution applied by every file/directory operation of the plan
executor: join a relative path onto the current working directory, then
canonicalize. -/
def resolvePath (cwd p : String) : String :=
  normalizePath (pathJoin cwd p)

/-- `os.path.dirname` on a canonical absolute path. -/
def dirname (p : String) : String :=
  match (pathComps p).dropLast with
  | [] => "/"
  | cs => "/" ++ joinWithSlash cs

/-- All ancestor directories (in canonical form) that `os.makedirs` ensures
exist for a directory `d`, excluding the root. -/
def ancestorDirs (d : String) : List String :=
  (pathComps d).foldl
    (fun acc c => acc ++ [(acc.getLast?.getD "") ++ "/" ++ c]) []

/-- File-system state: the set of existing directories and the files with
their contents, both keyed by canonical absolute paths.  The root
directory is implicitly always present. -/
structure FS where
  dirs : List String
  files : List (String × String)
deriving DecidableEq

/-- Is `p` an existing directory? -/
def FS.isDir (fs : FS) (p : String) : Bool := p = "/" || fs.dirs.contains p

/-- Content of the file at `p`, if one exists. -/
def FS.fileAt (fs : FS) (p : String) : Option String :=
  fs.files.lookup p

/-- Model of `os.makedirs(d, exist_ok=True)`: fails when some ancestor
already exists as a file, otherwise records every missing ancestor as a
directory. -/
def FS.makedirs (fs : FS) (d : String) : Option FS :=
  if (ancestorDirs d).any (fun a => (fs.fileAt a).isSome) then none
  else some { fs with dirs := fs.dirs ++ (ancestorDirs d).filter (fun a => ¬ fs.dirs.contains a) }

/-- Model of `open(p, "w").write(content)` preceded by
`os.makedirs(os.path.dirname(p), exist_ok=True)` (main.py lines 262-266):
fails when a parent exists as a file or when `p` itself is a directory;
otherwise stores `content` verbatim, overwriting any previous content. -/
def fsWrite (fs : FS) (p content : String) : Option FS :=
  match fs.makedirs (dirname p) with
  | none => none
  | some fs2 =>
    if fs2.isDir p then none
    else some { fs2 with files := (p, content) :: fs2.files.filter (fun q => q.1 ≠ p) }

/-- Model of `open(p, "r").read()` (main.py lines 278-281): fails when `p`
is a directory or does not exist as a file. -/
def fsRead (fs : FS) (p : String) : Option String :=
  if fs.isDir p then none else fs.fileAt p

/-- Every directory the file system records is an absolute path; this is
the well-formedness the operating system guarantees for real directory
entries. -/
def FS.wellFormed (fs : FS) : Prop :=
  ∀ d ∈ fs.dirs, isAbs d = true

/-! ## The shared directory-change logic

The same code appears verbatim at three sites: a plan step
(main.py 232-249), a `cd` command action (354-371), and a direct `cd`
typed at the shell (448-463).  `changeDirectory` transcribes it once:
take everything after the first space (`cmd.split(" ", 1)[1]`), expand a
bare `~` to the home directory, join a relative target onto the current
working directory, then attempt `os.chdir`; on success the new directory
is `os.getcwd()`, on any exception the state is untouched. -/

/-- The target directory string as computed before `os.chdir`
(this is the value interpolated into the error message on failure). -/
def cdTargetDir (home cwd cmd : String) : String :=
  let target := String.mk (cmd.data.drop 3)
  let target := if target = "~" then home else target
  if isAbs target then target else pathJoin cwd target

/-- Attempted directory change for a command starting with `"cd "`:
`some` of the new canonical working directory when the target directory
exists, `none` when `os.chdir` raises. -/
def changeDirectory (home : String) (fs : FS) (cwd cmd : String) : Option String :=
  let norm := normalizePath (cdTargetDir home cwd cmd)
  if fs.dirs.contains norm then some norm else none

/-! ## Context store (`context_manager.py`) -/

/-- One chat turn of the capped chat log. -/
structure ChatMsg where
  role : String
  content : String
deriving DecidableEq

/-- One command-audit entry (`add_system_command`, lines 71-81); the
timestamp is the value `time.time()` returned, threaded in as a
parameter. -/
structure AuditEntry where
  user_query : String
  command : Option String
  explanation : Option String
  timestamp : Nat
deriving DecidableEq

/-- The persisted context record written by `save_context`. -/
structure Context where
  messages : List AuditEntry
  chat_history : List ChatMsg
deriving DecidableEq

/-- `DEFAULT_CONTEXT` as a JSON value. -/
def defaultContextJson : JValue :=
  JValue.obj [("messages", JValue.arr []), ("chat_history", JValue.arr [])]

/-- Key membership in a JSON object's member list (Python `k in dict`). -/
def containsKey (k : String) (kvs : List (String × JValue)) : Bool :=
  kvs.any (fun p => p.1 = k)

/-- Python `k in data` followed (when absent) by `data[k] = dflt`, for one
default key: on a dict, append the key when missing; on a list, membership
is legal but the subsequent item assignment raises `TypeError`; on a
string, membership is a substring test and the assignment raises; on any
other value the membership test itself raises `TypeError`. -/
def backfillKey (k : String) (dflt : JValue) : JValue → Except Unit JValue
  | JValue.obj kvs =>
    if containsKey k kvs then Except.ok (JValue.obj kvs)
    else Except.ok (JValue.obj (kvs ++ [(k, dflt)]))
  | JValue.arr xs =>
    if xs.any (fun v => match v with | JValue.str s => s = k | _ => false) then
      Except.ok (JValue.arr xs)
    else Except.error ()
  | JValue.str s =>
    if strContains s k then Except.ok (JValue.str s) else Except.error ()
  | _ => Except.error ()

/-- Model of `load_context` (context_manager.py lines 14-29) over the raw
file state: `none` models a missing file; a present file holds its text.
Only `json.JSONDecodeError` is caught; the `Except.error` results model
exceptions that escape to the caller. -/
def load_context (file : Option String) : Except Unit JValue :=
  match file with
  | none => Except.ok defaultContextJson
  | some text =>
    match json_loads text with
    | none => Except.ok defaultContextJson
    | some data =>
      match backfillKey "messages" (JValue.arr []) data with
      | Except.error e => Except.error e
      | Except.ok d2 => backfillKey "chat_history" (JValue.arr []) d2

/-- Python `dict.get(k)` on a parsed object: the value of the last
occurrence of the key (the occurrence that survives in a Python dict). -/
def pyGet (k : String) (kvs : List (String × JValue)) : Option JValue :=
  kvs.foldl (fun acc p => if p.1 = k then some p.2 else acc) none

/-- The three `re.search` patterns of `is_json_command`
(context_manager.py lines 42-46), tried when `json.loads` raised:
a `json`-labeled fenced object, an unlabeled fenced object, and a brace
followed by a quoted `command` key followed by a closing brace.  All are
case-sensitive (`re.DOTALL` only makes `.` span newlines, which the fence
model already does). -/
def matchesCommandPatterns (content : String) : Bool :=
  (findFencedBlock "json" false content).isSome ||
  (findFencedBlock "" false content).isSome ||
  ((findSubAfter [lbr] content.data).bind
    (fun r => (findSubAfter (quotedKey "command") r).bind
      (fun r2 => findSubAfter [rbr] r2))).isSome

/-- Model of `is_json_command` (lines 36-47): content that parses as a
JSON dict with a `command` key is a command; content that parses as any
other JSON value is not; content that fails to parse is a command exactly
when one of the three textual patterns matches. -/
def is_json_command (content : String) : Bool :=
  match json_loads content with
  | some v =>
    match v with
    | JValue.obj kvs => containsKey "command" kvs
    | _ => false
  | none => matchesCommandPatterns content

/-- Python `l[-n:]`. -/
def takeLast {α : Type} (n : Nat) (l : List α) : List α :=
  l.drop (l.length - n)

/-- Model of `add_message` (lines 49-56) acting on the persisted context:
JSON-command content is skipped entirely; otherwise the turn is appended
and the chat log trimmed to its last 10 entries. -/
def add_message (role content : String) (ctx : Context) : Context :=
  if is_json_command content then ctx
  else { ctx with chat_history := takeLast 10 (ctx.chat_history ++ [⟨role, content⟩]) }

/-- Model of `add_system_command` (lines 71-81): append the audit entry and
trim the audit log to its last 5 entries. -/
def add_system_command (user_query : String) (command explanation : Option String)
    (ts : Nat) (ctx : Context) : Context :=
  { ctx with
    messages := takeLast 5 (ctx.messages ++
      [⟨user_query, command, explanation, ts⟩]) }

/-! ## Command executor (`run_shell_command`, main.py lines 146-195) -/

/-- The structured result dictionary returned by `run_shell_command`. -/
structure ExecutionResult where
  command : String
  stdout : String
  stderr : String
  return_code : Int
  summary : String
deriving DecidableEq

/-- What the `subprocess.run` call did: normal completion with captured
output and exit code, `subprocess.TimeoutExpired`, or any other exception
raised while launching (carrying its `str(e)` rendering). -/
inductive SubprocOutcome where
  | completed (stdout stderr : String) (returncode : Int)
  | timedOut
  | raised (msg : String)
deriving DecidableEq

/-- Model of `get_ai_summary` (lines 107-143): with no captured output the
fixed sentence is returned without calling the model; otherwise the model
reply is returned, and a failed model call degrades to a diagnostic string
(the function catches its own exceptions). `apiReply` is the oracle for
the remote call. -/
def get_ai_summary (apiReply : Except String String) (stdout stderr : String) : String :=
  if stdout = "" ∧ stderr = "" then "The command finished with no visible output."
  else
    match apiReply with
    | Except.ok s => s
    | Except.error e => "(Could not generate result: " ++ e ++ ")"

/-- The legacy rewrite applied before dispatch on Windows: the Unix
single-argument `touch` idiom becomes the PowerShell `New-Item` form. -/
def effectiveCmd (osIsWindows : Bool) (cmd : String) : String :=
  if osIsWindows ∧ startsWithChars "touch ".data cmd.data then
    "New-Item " ++ String.mk (cmd.data.drop 6) ++ " -ItemType File"
  else cmd

/-- The message produced on `subprocess.TimeoutExpired`. -/
def timeoutMsg : String := "The command took too long and was stopped."

/-- Model of `run_shell_command`: every subprocess outcome — including the
timeout and launch-failure exception paths, which Python catches — is
converted to an `ExecutionResult`; the function is total, so no exception
ever escapes it. -/
def run_shell_command (osIsWindows : Bool) (outcome : SubprocOutcome)
    (apiReply : Except String String) (cmd : String) : ExecutionResult :=
  let cmd := effectiveCmd osIsWindows cmd
  match outcome with
  | SubprocOutcome.completed out err rc =>
    { command := cmd, stdout := out, stderr := err, return_code := rc,
      summary := get_ai_summary apiReply out err }
  | SubprocOutcome.timedOut =>
    { command := cmd, stdout := "", stderr := timeoutMsg, return_code := -1,
      summary := timeoutMsg }
  | SubprocOutcome.raised e =>
    { command := cmd, stdout := "", stderr := e, return_code := -1, summary := e }

/-! ## Plan executor (`execute_plan`, main.py lines 218-287) -/

/-- The `write_file` sub-dictionary of a plan step: `wf.get("path")` may be
absent, `wf.get("content", "")` defaults to the empty string. -/
structure WriteSpec where
  path : Option String
  content : String
deriving DecidableEq

/-- The `read_file` sub-dictionary of a plan step. -/
structure ReadSpec where
  path : Option String
deriving DecidableEq

/-- One step dictionary of a plan.  The executor checks the keys in the
order `command`, `write_file`, `read_file` (`if`/`elif` chain); a step
with none of them does nothing. -/
structure PStep where
  command : Option String := none
  write_file : Option WriteSpec := none
  read_file : Option ReadSpec := none
  explanation : Option String := none
deriving DecidableEq

/-- Console-observable effects of one plan step (the execution trace); each
constructor carries the 1-based step index that the code prints. -/
inductive Event where
  | cdChanged (idx : Nat) (newCwd : String)
  | cdFailed (idx : Nat) (target : String)
  | ranCommand (idx : Nat) (cmd : String) (rc : Int)
  | stepFailedStop (idx : Nat)
  | fileWritten (idx : Nat) (path : String) (nchars : Nat)
  | writeFailed (idx : Nat) (path : Option String)
  | fileRead (idx : Nat) (path : String) (content : String)
  | readFailed (idx : Nat) (path : Option String)
deriving DecidableEq

/-- The session state threaded through plan execution: the global
`CURRENT_WORKING_DIRECTORY` mirror and the file system. -/
structure SessionState where
  cwd : String
  fs : FS
deriving DecidableEq

/-- The process environment of the executor: the home directory
(`os.path.expanduser("~")`) and the shell oracle giving the return code of
a command run in a working directory (stdout, stderr and the summary do
not influence plan control flow). -/
structure Cfg where
  home : String
  runShell : String → String → Int

/-- One iteration of the `execute_plan` loop: events emitted, the
resulting state, and whether the loop continues (`false` models `break`).
A `cd`-form command updates the working directory in place and always
continues — also when `os.chdir` raised, since the `continue` statement
sits after the `try`/`except`.  A non-`cd` command with a non-zero return
code, and any `write_file`/`read_file` exception, `break`s. -/
def execStep (cfg : Cfg) (idx : Nat) (s : SessionState) (st : PStep) :
    List Event × SessionState × Bool :=
  match st.command with
  | some cmd =>
    if startsWithChars "cd ".data cmd.data then
      match changeDirectory cfg.home s.fs s.cwd cmd with
      | some c => ([Event.cdChanged idx c], { s with cwd := c }, true)
      | none => ([Event.cdFailed idx (cdTargetDir cfg.home s.cwd cmd)], s, true)
    else
      let rc := cfg.runShell cmd s.cwd
      if rc ≠ 0 then ([Event.ranCommand idx cmd rc, Event.stepFailedStop idx], s, false)
      else ([Event.ranCommand idx cmd rc], s, true)
  | none =>
    match st.write_file with
    | some wf =>
      match wf.path with
      | none => ([Event.writeFailed idx none], s, false)
      | some p =>
        let rp := resolvePath s.cwd p
        match fsWrite s.fs rp wf.content with
        | some fs2 =>
          ([Event.fileWritten idx rp wf.content.length], { s with fs := fs2 }, true)
        | none => ([Event.writeFailed idx (some rp)], s, false)
    | none =>
      match st.read_file with
      | some rf =>
        match rf.path with
        | none => ([Event.readFailed idx none], s, false)
        | some p =>
          let rp := resolvePath s.cwd p
          match fsRead s.fs rp with
          | some content => ([Event.fileRead idx rp content], s, true)
          | none => ([Event.readFailed idx (some rp)], s, false)
      | none => ([], s, true)

/-- Result of running (a suffix of) a plan. -/
structure PlanRun where
  events : List Event
  state : SessionState
  stopped : Bool
deriving DecidableEq

/-- The `for` loop of `execute_plan` with its `break` semantics, carrying
the 1-based display index. -/
def execAux (cfg : Cfg) : Nat → SessionState → List PStep → PlanRun
  | _, s, [] => ⟨[], s, false⟩
  | idx, s, st :: rest =>
    match execStep cfg idx s st with
    | (evs, s2, cont) =>
      if cont then
        let r := execAux cfg (idx + 1) s2 rest
        ⟨evs ++ r.events, r.state, r.stopped⟩
      else ⟨evs, s2, true⟩

/-- Model of `execute_plan` applied to the step list of the plan
dictionary (an empty list only prints a notice and returns). -/
def execute_plan (cfg : Cfg) (s : SessionState) (steps : List PStep) : PlanRun :=
  execAux cfg 1 s steps

/-! ## Response dispatch (`process_ai_response`, main.py lines 310-391) -/

/-- The branch of `process_ai_response` taken for a model reply. -/
inductive Dispatch where
  | plainText
  | planBranch
  | commandBranch
  | doneBranch
  | unrecognized
deriving DecidableEq

/-- Python `k in action` for a parsed JSON value: key membership on a
dict, element equality on a list, substring on a string; on any other
value the operator raises `TypeError` (modelled by `Except.error`). -/
def jContains (k : String) : JValue → Except Unit Bool
  | JValue.obj kvs => Except.ok (containsKey k kvs)
  | JValue.arr xs =>
    Except.ok (xs.any (fun v => match v with | JValue.str s => s = k | _ => false))
  | JValue.str t => Except.ok (strContains t k)
  | _ => Except.error ()

/-- Python truthiness of a parsed JSON value.  (A non-integer numeric
literal is treated as truthy; no reply analysed by a claim carries one in
a `done` field.) -/
def truthy : JValue → Bool
  | JValue.null => false
  | JValue.bool b => b
  | JValue.num n => n ≠ 0
  | JValue.numRaw _ => true
  | JValue.str s => s ≠ ""
  | JValue.arr xs => ¬ xs.isEmpty
  | JValue.obj kvs => ¬ kvs.isEmpty

/-- The branch structure of `process_ai_response` on an extracted action:
the `plan` key is checked first, then `command`, then `done` (whose branch
additionally requires a truthy value, fetched with `action.get("done")`,
which raises on a non-dict).  `Except.error` models an exception escaping
the function. -/
def classifyAction (a : JValue) : Except Unit Dispatch :=
  match jContains "plan" a with
  | Except.error e => Except.error e
  | Except.ok hasPlan =>
    if hasPlan then Except.ok Dispatch.planBranch
    else
      match jContains "command" a with
      | Except.error e => Except.error e
      | Except.ok hasCommand =>
        if hasCommand then Except.ok Dispatch.commandBranch
        else
          match jContains "done" a with
          | Except.error e => Except.error e
          | Except.ok hasDone =>
            if hasDone then
              match a with
              | JValue.obj kvs =>
                if truthy ((pyGet "done" kvs).getD JValue.null) then
                  Except.ok Dispatch.doneBranch
                else Except.ok Dispatch.unrecognized
              | _ => Except.error ()
            else Except.ok Dispatch.unrecognized

/-- Which branch `process_ai_response` takes for a raw model reply. -/
def process_ai_response_branch (ai_out : String) : Except Unit Dispatch :=
  match _extract_json_from_text ai_out with
  | none => Except.ok Dispatch.plainText
  | some a => classifyAction a

/-! ## The three `cd` call sites (claim C5) -/

/-- Direct `cd ` input at the interactive shell (main.py lines 448-463):
update the working directory on success, leave it untouched on failure. -/
def shellCd (home : String) (s : SessionState) (query : String) : SessionState :=
  match changeDirectory home s.fs s.cwd query with
  | some c => { s with cwd := c }
  | none => s

/-- A `cd`-form command action dispatched by `process_ai_response`
(main.py lines 354-371): same update-or-leave-unchanged logic. -/
def commandActionCd (home : String) (s : SessionState) (cmd : String) : SessionState :=
  match changeDirectory home s.fs s.cwd cmd with
  | some c => { s with cwd := c }
  | none => s

/-- The ways a plan step makes `execute_plan` stop early: a non-`cd` shell
command whose return code is non-zero, or a `write_file`/`read_file` step
whose file operation raises (including a missing `path` key, where
`os.path.isabs(None)` raises `TypeError` inside the same `try`). -/
def stepAborts (cfg : Cfg) (s : SessionState) (st : PStep) : Prop :=
  (∃ cmd, st.command = some cmd ∧ startsWithChars "cd ".data cmd.data = false ∧
    cfg.runShell cmd s.cwd ≠ 0) ∨
  (st.command = none ∧ ∃ wf, st.write_file = some wf ∧
    (wf.path = none ∨
      ∃ p, wf.path = some p ∧ fsWrite s.fs (resolvePath s.cwd p) wf.content = none)) ∨
  (st.command = none ∧ st.write_file = none ∧ ∃ rf, st.read_file = some rf ∧
    (rf.path = none ∨
      ∃ p, rf.path = some p ∧ fsRead s.fs (resolvePath s.cwd p) = none))

/-! ## Helper lemmas -/

/-- Running a plan whose prefix does not `break` first runs the prefix and
then continues from the reached state, with the display index advanced by
the prefix length. -/
theorem execAux_append (cfg : Cfg) (rest : List PStep) :
    ∀ (pre : List PStep) (idx : Nat) (s : SessionState),
    (execAux cfg idx s pre).stopped = false →
    execAux cfg idx s (pre ++ rest)
      = ⟨(execAux cfg idx s pre).events
          ++ (execAux cfg (idx + pre.length) (execAux cfg idx s pre).state rest).events,
         (execAux cfg (idx + pre.length) (execAux cfg idx s pre).state rest).state,
         (execAux cfg (idx + pre.length) (execAux cfg idx s pre).state rest).stopped⟩ := by
  intro pre
  induction pre with
  | nil => intro idx s _; simp [execAux]
  | cons st pre ih =>
    intro idx s h
    rcases he : execStep cfg idx s st with ⟨evs, s2, cont⟩
    cases cont with
    | false =>
      exfalso
      simp [execAux, he] at h
    | true =>
      have h2 : (execAux cfg (idx + 1) s2 pre).stopped = false := by
        simpa [execAux, he] using h
      have := ih (idx + 1) s2 h2
      have hidx : idx + 1 + pre.length = idx + (pre.length + 1) := by omega
      rw [hidx] at this
      simp [List.cons_append, execAux, he, this]

/-- An aborting step makes `execStep` return the `break` flag, leaving the
state unchanged. -/
theorem execStep_of_stepAborts (cfg : Cfg) (idx : Nat) (s : SessionState) (st : PStep)
    (h : stepAborts cfg s st) :
    (execStep cfg idx s st).2.2 = false ∧ (execStep cfg idx s st).2.1 = s := by
  rcases h with ⟨cmd, hc, hcd, hrc⟩ | ⟨hc, wf, hw, hp⟩ | ⟨hc, hw, rf, hr, hp⟩
  · simp [execStep, hc, hcd, hrc]
  · rcases hp with hp | ⟨p, hp, hfail⟩
    · simp [execStep, hc, hw, hp]
    · simp [execStep, hc, hw, hp, hfail]
  · rcases hp with hp | ⟨p, hp, hfail⟩
    · simp [execStep, hc, hw, hr, hp]
    · simp [execStep, hc, hw, hr, hp, hfail]

/-- Reading back a freshly written file yields exactly the written
content. -/
theorem fsRead_after_fsWrite (fs fs2 : FS) (p c : String)
    (h : fsWrite fs p c = some fs2) : fsRead fs2 p = some c := by
  unfold fsWrite at h
  rcases hm : fs.makedirs (dirname p) with _ | fsm
  · rw [hm] at h; exact absurd h (by simp)
  · simp only [hm] at h
    by_cases hd : fsm.isDir p = true
    · simp [hd] at h
    · rw [if_neg hd] at h
      injection h with h
      subst h
      have hd' : fsm.isDir p = false := by simpa using hd
      simp only [FS.isDir, Bool.or_eq_false_iff, decide_eq_false_iff_not] at hd'
      simp [fsRead, FS.isDir, FS.fileAt, List.lookup_cons, hd'.1, hd'.2]
      intro hmem
      have hcontains : fsm.dirs.contains p = true := (List.elem_iff).mpr hmem
      rw [hd'.2] at hcontains
      exact Bool.false_ne_true hcontains

/-- A successful `changeDirectory` lands on a recorded directory. -/
theorem changeDirectory_mem (home : String) (fs : FS) (cwd cmd c : String)
    (h : changeDirectory home fs cwd cmd = some c) : c ∈ fs.dirs := by
  simp only [changeDirectory] at h
  by_cases hc : fs.dirs.contains (normalizePath (cdTargetDir home cwd cmd)) = true
  · rw [if_pos hc] at h
    injection h with h
    subst h
    exact (List.elem_iff).mp hc
  · rw [if_neg hc] at h
    exact absurd h (by simp)

/-- Python `l[-n:]` after appending one element to a list of length `n`
drops exactly the oldest element. -/
theorem takeLast_append_full {α : Type} (l : List α) (x : α) (n : Nat)
    (hn : 0 < n) (h : l.length = n) :
    takeLast n (l ++ [x]) = l.drop 1 ++ [x] := by
  unfold takeLast
  have hlen : (l ++ [x]).length = n + 1 := by simp [h]
  rw [hlen]
  have : n + 1 - n = 1 := by omega
  rw [this]
  exact List.drop_append_of_le_length (by omega)

/-! ## Claim theorems -/

/-- C1: when a plan reaches a step whose shell command returns a non-zero
code (or whose file write/read fails), the steps before it run in order
and contribute exactly their events, the failing step's events are emitted
(for a command step: the run with its non-zero code and the
step-failed-stop notice), the loop `break`s, and the steps after it
contribute nothing at all. -/
theorem C1_plan_fail_fast (cfg : Cfg) (s : SessionState) (pre : List PStep)
    (st : PStep) (post : List PStep)
    (hpre : (execute_plan cfg s pre).stopped = false)
    (hfail : stepAborts cfg (execute_plan cfg s pre).state st) :
    (execute_plan cfg s (pre ++ st :: post)).events
      = (execute_plan cfg s pre).events
        ++ (execStep cfg (1 + pre.length) (execute_plan cfg s pre).state st).1 ∧
    (execute_plan cfg s (pre ++ st :: post)).stopped = true ∧
    (∀ cmd, st.command = some cmd →
      (execStep cfg (1 + pre.length) (execute_plan cfg s pre).state st).1
        = [Event.ranCommand (1 + pre.length) cmd
             (cfg.runShell cmd (execute_plan cfg s pre).state.cwd),
           Event.stepFailedStop (1 + pre.length)]) := by
  have habort := execStep_of_stepAborts cfg (1 + pre.length)
    (execute_plan cfg s pre).state st hfail
  have happ := execAux_append cfg (st :: post) pre 1 s hpre
  rcases he : execStep cfg (1 + pre.length) (execute_plan cfg s pre).state st
    with ⟨evs, s2, cont⟩
  have hcont : cont = false := by
    have := habort.1
    rw [he] at this
    exact this
  subst hcont
  have hrun : execAux cfg (1 + pre.length) (execute_plan cfg s pre).state (st :: post)
      = ⟨evs, s2, true⟩ := by
    simp [execAux, he]
  refine ⟨?_, ?_, ?_⟩
  · show (execAux cfg 1 s (pre ++ st :: post)).events = _
    rw [happ]
    simp [execute_plan] at hrun
    simp [execute_plan, hrun, he]
  · show (execAux cfg 1 s (pre ++ st :: post)).stopped = true
    rw [happ]
    simp [execute_plan] at hrun
    simp [execute_plan, hrun]
  · intro cmd hcmd
    rcases hfail with ⟨cmd2, hc2, hcd2, hrc2⟩ | ⟨hc2, _⟩ | ⟨hc2, _, _⟩
    · have hcc : cmd2 = cmd := by
        rw [hcmd] at hc2
        injection hc2 with hx
        exact hx.symm
      subst hcc
      rw [he.symm]
      simp [execStep, hcmd, hcd2, hrc2]
    · rw [hcmd] at hc2; exact absurd hc2 (by simp)
    · rw [hcmd] at hc2; exact absurd hc2 (by simp)

/-- Witness for C1 at a concrete three-step plan whose middle command
returns code 1. -/
theorem C1_plan_fail_fast_witness :
    (execute_plan ⟨"/root", fun c _ => if c = "false" then 1 else 0⟩
        ⟨"/home", ⟨["/home"], []⟩⟩
        ([⟨some "echo a", none, none, none⟩]
          ++ ⟨some "false", none, none, none⟩ :: [⟨some "echo b", none, none, none⟩])).events
      = [Event.ranCommand 1 "echo a" 0, Event.ranCommand 2 "false" 1,
         Event.stepFailedStop 2] ∧
    (execute_plan ⟨"/root", fun c _ => if c = "false" then 1 else 0⟩
        ⟨"/home", ⟨["/home"], []⟩⟩
        ([⟨some "echo a", none, none, none⟩]
          ++ ⟨some "false", none, none, none⟩ :: [⟨some "echo b", none, none, none⟩])).stopped
      = true := by
  have h := C1_plan_fail_fast ⟨"/root", fun c _ => if c = "false" then 1 else 0⟩
    ⟨"/home", ⟨["/home"], []⟩⟩
    [⟨some "echo a", none, none, none⟩] ⟨some "false", none, none, none⟩
    [⟨some "echo b", none, none, none⟩] (by rfl)
    (Or.inl ⟨"false", rfl, by rfl, by decide⟩)
  exact ⟨h.1.trans (by rfl), h.2.1⟩

/-- C2 counterexample: the code's extractor and the four-strategy parser
claimed by the spec disagree on concrete inputs.  On text whose only
braced span lacks a recognized key, the code's greedy third strategy still
parses it while the claimed strategy (d) gives `none`; on text with two
braced objects, the claimed strategy (d) extracts the first object with a
recognized key while the code's greedy span (first brace to last brace) is
not valid JSON, so the code returns `none`. -/
theorem C2_counterexample :
    _extract_json_from_text "note \x7b\"a\": 1\x7d end"
      = some (JValue.obj [("a", JValue.num 1)]) ∧
    extractJsonSpecOrder "note \x7b\"a\": 1\x7d end" = none ∧
    _extract_json_from_text "\x7b\"command\": \"ls\"\x7d x \x7b\"b\": 2\x7d" = none ∧
    extractJsonSpecOrder "\x7b\"command\": \"ls\"\x7d x \x7b\"b\": 2\x7d"
      = some (JValue.obj [("command", JValue.str "ls")]) :=
  ⟨rfl, rfl, rfl, rfl⟩

/-- C2 amended: the extractor attempts exactly three strategies in order —
whole text, fenced block labeled `json` (case-insensitively), and the span
from the first opening brace to the last closing brace anywhere in the
text (no balance check and no key requirement) — returning the first
successful parse and `none` when all fail or the text is empty. -/
theorem C2_extraction_order (t : String) :
    _extract_json_from_text t = extractChainAmended t := by
  unfold _extract_json_from_text extractChainAmended
  by_cases h0 : t = ""
  · simp [h0]
  · simp only [h0, if_false]
    cases h1 : json_loads t with
    | some v => simp [Option.orElse]
    | none =>
      cases h2 : findFencedBlock "json" true t with
      | none =>
        cases h3 : firstLastBrace t with
        | none => simp [Option.orElse, h2, h3]
        | some g => simp [Option.orElse, h2, h3]
      | some g =>
        cases h3 : json_loads g with
        | some v => simp [Option.orElse, h2, h3]
        | none =>
          cases h4 : firstLastBrace t with
          | none => simp [Option.orElse, h2, h3, h4]
          | some g2 => simp [Option.orElse, h2, h3, h4]

/-- C3: on a parsed reply that is an object, dispatch enters the branches
in the priority order `plan`, then `command`, then truthy `done`; in
particular an object holding both a `plan` and a `command` key always
takes the plan branch, never the command branch. -/
theorem C3_plan_priority (t1 t2 t3 : String)
    (kvs1 kvs2 kvs3 : List (String × JValue))
    (h1 : _extract_json_from_text t1 = some (JValue.obj kvs1))
    (hp1 : containsKey "plan" kvs1 = true)
    (hc1 : containsKey "command" kvs1 = true)
    (h2 : _extract_json_from_text t2 = some (JValue.obj kvs2))
    (hp2 : containsKey "plan" kvs2 = false)
    (hc2 : containsKey "command" kvs2 = true)
    (h3 : _extract_json_from_text t3 = some (JValue.obj kvs3))
    (hp3 : containsKey "plan" kvs3 = false)
    (hc3 : containsKey "command" kvs3 = false)
    (hd3 : containsKey "done" kvs3 = true)
    (hdt : truthy ((pyGet "done" kvs3).getD JValue.null) = true) :
    process_ai_response_branch t1 = Except.ok Dispatch.planBranch ∧
    process_ai_response_branch t2 = Except.ok Dispatch.commandBranch ∧
    process_ai_response_branch t3 = Except.ok Dispatch.doneBranch := by
  refine ⟨?_, ?_, ?_⟩
  · simp [process_ai_response_branch, h1, classifyAction, jContains, hp1]
  · simp [process_ai_response_branch, h2, classifyAction, jContains, hp2, hc2]
  · simp [process_ai_response_branch, h3, classifyAction, jContains, hp3, hc3, hd3, hdt]

/-- Witness for C3 at three concrete replies: one with both `plan` and
`command`, one with only `command`, one with a truthy `done`. -/
theorem C3_plan_priority_witness :
    process_ai_response_branch "\x7b\"plan\": [], \"command\": \"ls\"\x7d"
      = Except.ok Dispatch.planBranch ∧
    process_ai_response_branch "\x7b\"command\": \"ls\"\x7d"
      = Except.ok Dispatch.commandBranch ∧
    process_ai_response_branch "\x7b\"done\": true\x7d"
      = Except.ok Dispatch.doneBranch :=
  C3_plan_priority "\x7b\"plan\": [], \"command\": \"ls\"\x7d"
    "\x7b\"command\": \"ls\"\x7d" "\x7b\"done\": true\x7d"
    [("plan", JValue.arr []), ("command", JValue.str "ls")]
    [("command", JValue.str "ls")] [("done", JValue.bool true)]
    rfl rfl rfl rfl rfl rfl rfl rfl rfl rfl rfl

/-- C4: the command executor converts every subprocess outcome into an
`ExecutionResult` — it is a total function, so no failure escapes it.  A
timeout and a launch exception both produce the synthetic return code `-1`
with an explanatory stderr (the fixed timeout sentence, respectively the
rendering of the exception); a normal completion passes the captured
stdout, stderr and exit code through unchanged. -/
theorem C4_executor_never_throws (osW : Bool) (api : Except String String)
    (cmd out err e : String) (rc : Int) :
    run_shell_command osW SubprocOutcome.timedOut api cmd
      = ⟨effectiveCmd osW cmd, "", timeoutMsg, -1, timeoutMsg⟩ ∧
    run_shell_command osW (SubprocOutcome.raised e) api cmd
      = ⟨effectiveCmd osW cmd, "", e, -1, e⟩ ∧
    run_shell_command osW (SubprocOutcome.completed out err rc) api cmd
      = ⟨effectiveCmd osW cmd, out, err, rc, get_ai_summary api out err⟩ ∧
    (run_shell_command osW SubprocOutcome.timedOut api cmd).return_code < 0 ∧
    (run_shell_command osW (SubprocOutcome.raised e) api cmd).return_code < 0 := by
  refine ⟨rfl, rfl, rfl, ?_, ?_⟩ <;> simp [run_shell_command]

/-- C5: at each of the three sites that change the working directory — a
direct `cd` at the shell, a `cd`-form command action, and a `cd`-form plan
step — a successful update sets the session's working directory to an
absolute path recorded as an existing directory, and a failed change
leaves the session state exactly as it was. -/
theorem C5_cwd_invariant (cfg : Cfg) (s : SessionState) (query cmd pcmd : String)
    (idx : Nat) (expl : Option String) (hwf : s.fs.wellFormed) :
    (∀ c, changeDirectory cfg.home s.fs s.cwd query = some c →
      shellCd cfg.home s query = { s with cwd := c } ∧ isAbs c = true ∧ c ∈ s.fs.dirs) ∧
    (changeDirectory cfg.home s.fs s.cwd query = none →
      shellCd cfg.home s query = s) ∧
    (∀ c, changeDirectory cfg.home s.fs s.cwd cmd = some c →
      commandActionCd cfg.home s cmd = { s with cwd := c } ∧
        isAbs c = true ∧ c ∈ s.fs.dirs) ∧
    (changeDirectory cfg.home s.fs s.cwd cmd = none →
      commandActionCd cfg.home s cmd = s) ∧
    (startsWithChars "cd ".data pcmd.data = true →
      (∀ c, changeDirectory cfg.home s.fs s.cwd pcmd = some c →
        execStep cfg idx s ⟨some pcmd, none, none, expl⟩
          = ([Event.cdChanged idx c], { s with cwd := c }, true) ∧
        isAbs c = true ∧ c ∈ s.fs.dirs) ∧
      (changeDirectory cfg.home s.fs s.cwd pcmd = none →
        execStep cfg idx s ⟨some pcmd, none, none, expl⟩
          = ([Event.cdFailed idx (cdTargetDir cfg.home s.cwd pcmd)], s, true))) := by
  refine ⟨?_, ?_, ?_, ?_, ?_⟩
  · intro c hc
    have hmem := changeDirectory_mem cfg.home s.fs s.cwd query c hc
    exact ⟨by simp [shellCd, hc], hwf c hmem, hmem⟩
  · intro hc
    simp [shellCd, hc]
  · intro c hc
    have hmem := changeDirectory_mem cfg.home s.fs s.cwd cmd c hc
    exact ⟨by simp [commandActionCd, hc], hwf c hmem, hmem⟩
  · intro hc
    simp [commandActionCd, hc]
  · intro hcd
    constructor
    · intro c hc
      have hmem := changeDirectory_mem cfg.home s.fs s.cwd pcmd c hc
      exact ⟨by simp [execStep, hcd, hc], hwf c hmem, hmem⟩
    · intro hc
      simp [execStep, hcd, hc]

/-- Witness for C5 at a concrete file system: a successful `cd /tmp` at
the shell and a failed `cd /nope` command action. -/
theorem C5_cwd_invariant_witness :
    shellCd "/root" ⟨"/home", ⟨["/home", "/tmp"], []⟩⟩ "cd /tmp"
      = ⟨"/tmp", ⟨["/home", "/tmp"], []⟩⟩ ∧
    isAbs "/tmp" = true ∧ "/tmp" ∈ (["/home", "/tmp"] : List String) ∧
    commandActionCd "/root" ⟨"/home", ⟨["/home", "/tmp"], []⟩⟩ "cd /nope"
      = ⟨"/home", ⟨["/home", "/tmp"], []⟩⟩ := by
  have h := C5_cwd_invariant ⟨"/root", fun _ _ => 0⟩
    ⟨"/home", ⟨["/home", "/tmp"], []⟩⟩ "cd /tmp" "cd /nope" "cd /tmp" 1 none
    (by unfold FS.wellFormed; decide)
  exact ⟨(h.1 "/tmp" rfl).1, (h.1 "/tmp" rfl).2.1, (h.1 "/tmp" rfl).2.2,
    h.2.2.2.1 rfl⟩

/-- C6 counterexample: a failed directory change inside a plan does not
abort it.  On the concrete plan `[cd /nope, echo hi]` over a file system
without `/nope`, the failure is printed (the `cdFailed` event) and the
next step still runs (the `ranCommand` event for step 2), with the loop
never breaking. -/
theorem C6_counterexample :
    (execute_plan ⟨"/root", fun _ _ => 0⟩ ⟨"/home", ⟨["/home"], []⟩⟩
        [⟨some "cd /nope", none, none, none⟩,
         ⟨some "echo hi", none, none, none⟩]).events
      = [Event.cdFailed 1 "/nope", Event.ranCommand 2 "echo hi" 0] ∧
    (execute_plan ⟨"/root", fun _ _ => 0⟩ ⟨"/home", ⟨["/home"], []⟩⟩
        [⟨some "cd /nope", none, none, none⟩,
         ⟨some "echo hi", none, none, none⟩]).stopped = false :=
  ⟨rfl, rfl⟩

/-- C6 amended: an I/O failure while performing a `cd`-form plan step is
caught per-operation and reported (the `cdFailed` event), never crashes
the session, and execution continues with the remaining steps from an
unchanged session state — the `continue` sits after the `try`/`except`,
so the plan is not aborted. -/
theorem C6_cd_failure_continues (cfg : Cfg) (idx : Nat) (s : SessionState)
    (cmd : String) (expl : Option String) (rest : List PStep)
    (hcd : startsWithChars "cd ".data cmd.data = true)
    (hfail : changeDirectory cfg.home s.fs s.cwd cmd = none) :
    execAux cfg idx s (⟨some cmd, none, none, expl⟩ :: rest)
      = ⟨Event.cdFailed idx (cdTargetDir cfg.home s.cwd cmd)
           :: (execAux cfg (idx + 1) s rest).events,
         (execAux cfg (idx + 1) s rest).state,
         (execAux cfg (idx + 1) s rest).stopped⟩ := by
  simp [execAux, execStep, hcd, hfail]

/-- Witness for C6's amended statement on the concrete two-step plan. -/
theorem C6_cd_failure_continues_witness :
    execAux ⟨"/root", fun _ _ => 0⟩ 1 ⟨"/home", ⟨["/home"], []⟩⟩
        [⟨some "cd /nope", none, none, none⟩,
         ⟨some "echo hi", none, none, none⟩]
      = ⟨[Event.cdFailed 1 "/nope", Event.ranCommand 2 "echo hi" 0],
         ⟨"/home", ⟨["/home"], []⟩⟩, false⟩ := by
  have h := C6_cd_failure_continues ⟨"/root", fun _ _ => 0⟩ 1
    ⟨"/home", ⟨["/home"], []⟩⟩ "cd /nope" none
    [⟨some "echo hi", none, none, none⟩] (by rfl) (by rfl)
  exact h.trans (by rfl)

/-- C7: the persisted logs are strictly capped on append — with 10 chat
turns recorded, adding an 11th (non-command) turn keeps exactly the 10
most recent, dropping the oldest; with 5 audit entries recorded, adding a
6th keeps exactly the 5 most recent. -/
theorem C7_history_caps (ctx : Context) (role content user_query : String)
    (cmdv expv : Option String) (ts : Nat)
    (h10 : ctx.chat_history.length = 10)
    (hnc : is_json_command content = false)
    (h5 : ctx.messages.length = 5) :
    (add_message role content ctx).chat_history
      = ctx.chat_history.drop 1 ++ [⟨role, content⟩] ∧
    (add_message role content ctx).chat_history.length = 10 ∧
    (add_system_command user_query cmdv expv ts ctx).messages
      = ctx.messages.drop 1 ++ [⟨user_query, cmdv, expv, ts⟩] ∧
    (add_system_command user_query cmdv expv ts ctx).messages.length = 5 := by
  have e1 := takeLast_append_full ctx.chat_history
    (⟨role, content⟩ : ChatMsg) 10 (by omega) h10
  have e2 := takeLast_append_full ctx.messages
    (⟨user_query, cmdv, expv, ts⟩ : AuditEntry) 5 (by omega) h5
  refine ⟨?_, ?_, ?_, ?_⟩
  · simp [add_message, hnc, e1]
  · simp [add_message, hnc, e1, h10]
  · simp [add_system_command, e2]
  · simp [add_system_command, e2, h5]

/-- Witness for C7: a full chat log of 10 turns and a full audit log of 5
entries, extended by one non-command turn and one audit entry. -/
theorem C7_history_caps_witness :
    (add_message "user" "hello"
        ⟨List.replicate 5 ⟨"q", none, none, 0⟩,
         List.replicate 10 ⟨"user", "m"⟩⟩).chat_history.length = 10 ∧
    (add_system_command "q2" (some "ls") none 7
        ⟨List.replicate 5 ⟨"q", none, none, 0⟩,
         List.replicate 10 ⟨"user", "m"⟩⟩).messages.length = 5 := by
  have h := C7_history_caps
    ⟨List.replicate 5 ⟨"q", none, none, 0⟩, List.replicate 10 ⟨"user", "m"⟩⟩
    "user" "hello" "q2" (some "ls") none 7 (by rfl) (by rfl) (by rfl)
  exact ⟨h.2.1, h.2.2.2⟩

/-- C8 counterexample: a file holding `[1, 2]` is parsed without error by
`json.load`, but the backfill loop then executes `data["messages"] = []`
on a list, raising an uncaught `TypeError` — so loading is not error-free
for every file that loads. -/
theorem C8_counterexample :
    json_loads "[1, 2]" = some (JValue.arr [JValue.num 1, JValue.num 2]) ∧
    load_context (some "[1, 2]") = Except.error () :=
  ⟨rfl, rfl⟩

/-- C8 amended: a missing file and a file that fails JSON parsing both
yield the two-empty-lists default; a file that parses as a JSON object is
backfilled with each missing top-level key (appended after the existing
pairs, which are all kept) and returned without error; only a file whose
JSON value is not an object makes the backfill raise. -/
theorem C8_load_defaults (s1 s2 : String) (kvs : List (String × JValue))
    (hbad : json_loads s1 = none)
    (hobj : json_loads s2 = some (JValue.obj kvs)) :
    load_context none = Except.ok defaultContextJson ∧
    load_context (some s1) = Except.ok defaultContextJson ∧
    ∃ extra, load_context (some s2) = Except.ok (JValue.obj (kvs ++ extra)) ∧
      containsKey "messages" (kvs ++ extra) = true ∧
      containsKey "chat_history" (kvs ++ extra) = true := by
  refine ⟨rfl, by simp [load_context, hbad], ?_⟩
  have hm' : kvs.any (fun p => p.1 = "messages") = containsKey "messages" kvs := rfl
  by_cases hm : containsKey "messages" kvs = true
  · by_cases hc : containsKey "chat_history" kvs = true
    · refine ⟨[], by simp [load_context, hobj, backfillKey, hm, hc], ?_, ?_⟩
      · simpa using hm
      · simpa using hc
    · refine ⟨[("chat_history", JValue.arr [])], ?_, ?_, ?_⟩
      · simp [load_context, hobj, backfillKey, hm, hc]
      · simp only [containsKey, List.any_append, Bool.or_eq_true]
        exact Or.inl hm
      · simp [containsKey, List.any_append]
  · have hck : containsKey "chat_history" (kvs ++ [("messages", JValue.arr [])])
        = containsKey "chat_history" kvs := by
      simp [containsKey, List.any_append]
    by_cases hc : containsKey "chat_history" kvs = true
    · refine ⟨[("messages", JValue.arr [])], ?_, ?_, ?_⟩
      · simp [load_context, hobj, backfillKey, hm, hck, hc]
      · simp [containsKey, List.any_append]
      · simp only [containsKey, List.any_append, Bool.or_eq_true]
        exact Or.inl hc
    · refine ⟨[("messages", JValue.arr []), ("chat_history", JValue.arr [])],
        ?_, ?_, ?_⟩
      · have : kvs ++ [("messages", JValue.arr []), ("chat_history", JValue.arr [])]
            = (kvs ++ [("messages", JValue.arr [])]) ++ [("chat_history", JValue.arr [])] := by
          simp
        rw [this]
        simp [load_context, hobj, backfillKey, hm, hck, hc]
      · simp [containsKey, List.any_append]
      · simp [containsKey, List.any_append]

/-- Witness for C8 at a malformed file and a file holding an object with
only the `messages` key. -/
theorem C8_load_defaults_witness :
    load_context none = Except.ok defaultContextJson ∧
    load_context (some "garbage") = Except.ok defaultContextJson ∧
    ∃ extra, load_context (some "\x7b\"messages\": [1]\x7d")
        = Except.ok (JValue.obj ([("messages", JValue.arr [JValue.num 1])] ++ extra)) ∧
      containsKey "messages" ([("messages", JValue.arr [JValue.num 1])] ++ extra) = true ∧
      containsKey "chat_history" ([("messages", JValue.arr [JValue.num 1])] ++ extra) = true :=
  C8_load_defaults "garbage" "\x7b\"messages\": [1]\x7d"
    [("messages", JValue.arr [JValue.num 1])] rfl rfl

/-- C9: a plan that writes `"hello"` to a path and then reads the same
path back (both resolved against the same working directory) reads exactly
`"hello"`; the write stores the content verbatim with overwrite semantics
(any previous content at the resolved path is replaced), and the reported
character count is the content length. -/
theorem C9_write_read_round_trip (cfg : Cfg) (s : SessionState) (pth : String)
    (e1 e2 : Option String) (fs2 : FS)
    (hw : fsWrite s.fs (resolvePath s.cwd pth) "hello" = some fs2) :
    execute_plan cfg s
        [⟨none, some ⟨some pth, "hello"⟩, none, e1⟩,
         ⟨none, none, some ⟨some pth⟩, e2⟩]
      = ⟨[Event.fileWritten 1 (resolvePath s.cwd pth) 5,
          Event.fileRead 2 (resolvePath s.cwd pth) "hello"],
         { s with fs := fs2 }, false⟩ := by
  have hr := fsRead_after_fsWrite s.fs fs2 (resolvePath s.cwd pth) "hello" hw
  simp [execute_plan, execAux, execStep, hw, hr]
  rfl

/-- Witness for C9 on a concrete empty home directory. -/
theorem C9_write_read_round_trip_witness :
    execute_plan ⟨"/root", fun _ _ => 0⟩ ⟨"/home", ⟨["/home"], []⟩⟩
        [⟨none, some ⟨some "f.txt", "hello"⟩, none, none⟩,
         ⟨none, none, some ⟨some "f.txt"⟩, none⟩]
      = ⟨[Event.fileWritten 1 "/home/f.txt" 5,
          Event.fileRead 2 "/home/f.txt" "hello"],
         ⟨"/home", ⟨["/home"], [("/home/f.txt", "hello")]⟩⟩, false⟩ := by
  have h := C9_write_read_round_trip ⟨"/root", fun _ _ => 0⟩
    ⟨"/home", ⟨["/home"], []⟩⟩ "f.txt" none none
    ⟨["/home"], [("/home/f.txt", "hello")]⟩ (by rfl)
  exact h.trans (by rfl)

/-- C10 counterexample: the content `[{"command": "ls"}]` textually
matches the embedded command pattern, yet it parses as valid JSON (a
list), so `is_json_command` returns `False` and `add_message` records the
turn — the persisted context changes. -/
theorem C10_counterexample :
    matchesCommandPatterns "[\x7b\"command\": \"ls\"\x7d]" = true ∧
    add_message "assistant" "[\x7b\"command\": \"ls\"\x7d]" ⟨[], []⟩
      = ⟨[], [⟨"assistant", "[\x7b\"command\": \"ls\"\x7d]"⟩]⟩ ∧
    ¬ add_message "assistant" "[\x7b\"command\": \"ls\"\x7d]" ⟨[], []⟩
        = (⟨[], []⟩ : Context) :=
  ⟨rfl, rfl, by decide⟩

/-- C10 amended: a chat turn is skipped — the persisted context left
entirely unchanged — when its content parses as a JSON object with a
`command` key, or fails JSON parsing and textually matches one of the
fenced/embedded command-like patterns; content that parses as valid
non-object JSON is recorded even when it textually matches a pattern. -/
theorem C10_json_commands_skipped (role content : String) (ctx : Context)
    (h : (∃ kvs, json_loads content = some (JValue.obj kvs) ∧
            containsKey "command" kvs = true)
       ∨ (json_loads content = none ∧ matchesCommandPatterns content = true)) :
    add_message role content ctx = ctx := by
  unfold add_message is_json_command
  rcases h with ⟨kvs, hl, hc⟩ | ⟨hl, hp⟩
  · rw [hl]
    simp [hc]
  · rw [hl]
    simp [hp]

/-- Witness for C10's amended statement on a plain command reply. -/
theorem C10_json_commands_skipped_witness :
    add_message "assistant" "\x7b\"command\": \"ls\", \"explanation\": \"list\"\x7d"
        ⟨[], [⟨"user", "hi"⟩]⟩
      = ⟨[], [⟨"user", "hi"⟩]⟩ :=
  C10_json_commands_skipped "assistant"
    "\x7b\"command\": \"ls\", \"explanation\": \"list\"\x7d" ⟨[], [⟨"user", "hi"⟩]⟩
    (Or.inl ⟨[("command", JValue.str "ls"), ("explanation", JValue.str "list")],
      rfl, rfl⟩)

end Coffee
